import Mathlib

/-!
Verification of the Navigation & Session Lifecycle core of the
terminal-portfolio application.

Part 1 (namespace Nav) is a shallow embedding of the keyboard navigation
hook `src/hooks/useKeyboardNavigation.tsx`: the six-section catalog, the
arrow/vim/number-key input handler and the wrap-around transition logic.
The handler is modelled as a pure function from (raw input, modifier
flags, current section) to the list of observable effects it performs
(calls to onSectionChange and to the exit path), in the order the code
performs them.

Part 2 (namespace SM) is a shallow embedding of the session tracker
`src/utils/sessionManager.ts`: an explicit state record (the sessions
map, the pending idle timers, the options and the shutting-down flag),
with every public operation translated as a state transformer that also
returns the list of events it emits.  JavaScript `Map`s are modelled as
insertion-ordered association lists; `Date` timestamps as natural-number
milliseconds supplied by the caller (`now`); `setTimeout` handles as
fresh tokens drawn from a counter.
-/

set_option linter.unusedVariables false

namespace Nav

/-- The `SectionType` union from `src/types/app`: the six fixed sections. -/
inductive SectionType where
  | home
  | about
  | experience
  | skills
  | projects
  | contact
deriving DecidableEq, Repr

open SectionType

/-- The memoized `sections` array of the hook:
`['home', 'about', 'experience', 'skills', 'projects', 'contact']`. -/
def sections : List SectionType := [home, about, experience, skills, projects, contact]

/-- The `direction` argument of `navigateToSection`: `'next' | 'prev'`. -/
inductive Direction where
  | next
  | prev
deriving DecidableEq, Repr

/-- Index arithmetic of `navigateToSection`:
`currentIndex < sections.length - 1 ? currentIndex + 1 : 0` for next and
`currentIndex > 0 ? currentIndex - 1 : sections.length - 1` for prev. -/
def navIndex (dir : Direction) (current : SectionType) : Nat :=
  let currentIndex := sections.indexOf current
  match dir with
  | .next => if currentIndex < sections.length - 1 then currentIndex + 1 else 0
  | .prev => if currentIndex > 0 then currentIndex - 1 else sections.length - 1

/-- The section read back by `navigateToSection` (`sections[newIndex]`);
`none` models the JavaScript `undefined` of an out-of-range read. -/
def navigateToSection (dir : Direction) (current : SectionType) : Option SectionType :=
  sections.get? (navIndex dir current)

/-- An observable effect of the input handler: a call to
`onSectionChange` with the given section, or reaching the exit path
(`handleExit`, which calls the optional onExit callback and exits). -/
inductive Effect where
  | sectionChange (s : SectionType)
  | exit
deriving DecidableEq, Repr

/-- The effects of `navigateToSection`: it calls `onSectionChange(newSection)`
only when `newSection !== currentSection`. -/
def navigateToSectionEffects (dir : Direction) (current : SectionType) : List Effect :=
  match navigateToSection dir current with
  | some newSection => if newSection ≠ current then [Effect.sectionChange newSection] else []
  | none => []

/-- The memoized `sectionMap` object literal of the hook. -/
def sectionMap (input : String) : Option SectionType :=
  if input = "1" then some home
  else if input = "2" then some about
  else if input = "3" then some experience
  else if input = "4" then some skills
  else if input = "5" then some projects
  else if input = "6" then some contact
  else none

/-- The effects of `navigateToSectionByNumber`: looks the digit up in
`sectionMap` and calls `onSectionChange` only when the target exists and
differs from the current section. -/
def navigateToSectionByNumber (input : String) (current : SectionType) : List Effect :=
  match sectionMap input with
  | some target => if target ≠ current then [Effect.sectionChange target] else []
  | none => []

/-- The modifier flags of the ink `useInput` key object that the handler
reads.  Absent fields of the JavaScript object are falsy, hence the
`false` defaults. -/
structure Key where
  escape : Bool := false
  ctrl : Bool := false
  upArrow : Bool := false
  downArrow : Bool := false
  leftArrow : Bool := false
  rightArrow : Bool := false
deriving DecidableEq, Repr

/-- A key object with no modifier set (a plain character keypress). -/
def noKey : Key := {}

/-- `input.toLowerCase()`: lower-case every character of the string
(same function as the library `String.toLower`, written as a plain map
over the character list so that it reduces definitionally). -/
def toLowerStr (s : String) : String := ⟨s.data.map Char.toLower⟩

/-- The digit guard `['1', '2', '3', '4', '5', '6'].includes(input)`. -/
def digitKeys : List String := ["1", "2", "3", "4", "5", "6"]

/-- The `handleInput` callback of the hook, as the list of effects it
performs for one keypress, in order.  The first three groups of the
JavaScript code end in `return`, so they are else-if branches here; the
vim `switch` on the lower-cased input and the final `input === 'G'`
check do not return, so their effects concatenate. -/
def handleInput (input : String) (key : Key) (current : SectionType) : List Effect :=
  if key.escape ∨ input = "q" ∨ (key.ctrl ∧ input = "c") then
    [Effect.exit]
  else if input ∈ digitKeys then
    navigateToSectionByNumber input current
  else if key.upArrow ∨ key.leftArrow then
    navigateToSectionEffects .prev current
  else if key.downArrow ∨ key.rightArrow then
    navigateToSectionEffects .next current
  else
    let lowerInput := toLowerStr input
    let vimEffects :=
      if lowerInput = "h" ∨ lowerInput = "k" then
        navigateToSectionEffects .prev current
      else if lowerInput = "l" ∨ lowerInput = "j" then
        navigateToSectionEffects .next current
      else if lowerInput = "g" then
        if current ≠ home then [Effect.sectionChange home] else []
      else []
    vimEffects ++ (if input = "G" ∧ current ≠ contact then [Effect.sectionChange contact] else [])

/-- The current section after the host applies a list of effects: each
`onSectionChange s` sets the React state to `s`; the exit effect does
not change the section. -/
def applySectionEffects (effects : List Effect) (current : SectionType) : SectionType :=
  effects.foldl (fun cur e => match e with | .sectionChange s => s | .exit => cur) current

/-- Folding a sequence of Next/Previous intents through
`navigateToSection`, starting from a section; `none` would mean an
out-of-range read happened somewhere along the way. -/
def runNav (intents : List Direction) (start : SectionType) : Option SectionType :=
  intents.foldl (fun cur d => cur.bind (navigateToSection d)) (some start)

end Nav

namespace SM

/-- The `SessionInfo` interface of `src/utils/sessionManager.ts`.
Timestamps are natural-number milliseconds; the optional `userAgent`
field is never written by the manager and is omitted. -/
structure SessionInfo where
  id : String
  startTime : Nat
  endTime : Option Nat := none
  terminalSize : Option (Nat × Nat) := none
  sectionsVisited : List String := []
  lastActivity : Nat
deriving DecidableEq, Repr

/-- The only error the manager ever throws:
`new Error('Session manager is shutting down')`, the spec's
ShuttingDownError.  The spec's CapacityError has no counterpart in the
code, which is exactly what claim C6 is about. -/
inductive SMError where
  | shuttingDown
deriving DecidableEq, Repr

/-- The events the manager emits: `sessionCreated`, `sessionActivity`,
`sessionEnded` (carrying the spread record plus reason and duration) and
`shutdown`. -/
inductive Event where
  | created (s : SessionInfo)
  | activity (s : SessionInfo)
  | ended (s : SessionInfo) (reason : String) (duration : Nat)
  | shutdownEvent
deriving DecidableEq, Repr

/-- The mutable state of a SessionManager instance: the `sessions` map,
the `cleanupTimers` map (each pending `setTimeout` handle modelled as a
fresh token drawn from `nextTimer`), the resolved options and the
`isShuttingDown` flag.  JavaScript `Map`s are insertion-ordered
association lists with unique keys. -/
structure State where
  sessions : List (String × SessionInfo) := []
  timers : List (String × Nat) := []
  nextTimer : Nat := 0
  maxSessions : Nat := 100
  sessionTimeout : Nat := 30 * 60 * 1000
  isShuttingDown : Bool := false
deriving DecidableEq, Repr

/-- `Map.get`: the value at the first (in a well-formed map, only)
occurrence of the key. -/
def mget {α : Type} : List (String × α) → String → Option α
  | [], _ => none
  | p :: ps, k => if p.1 = k then some p.2 else mget ps k

/-- `Map.set`: update the value in place if the key is present,
otherwise append the new entry (JavaScript Maps preserve insertion
order). -/
def mset {α : Type} : List (String × α) → String → α → List (String × α)
  | [], k, v => [(k, v)]
  | p :: ps, k, v => if p.1 = k then (k, v) :: ps else p :: mset ps k v

/-- `Map.delete`: remove the entry for the key, if any. -/
def mdel {α : Type} : List (String × α) → String → List (String × α)
  | [], _ => []
  | p :: ps, k => if p.1 = k then ps else p :: mdel ps k

/-- `endSession(sessionId, reason)`: no-op for an unknown id; otherwise
sets `endTime`, computes the duration, clears the session's timer,
emits `sessionEnded` with the record spread plus reason and duration,
and deletes the record from the map. -/
def endSession (st : State) (now : Nat) (sessionId : String) (reason : String) :
    State × List Event :=
  match mget st.sessions sessionId with
  | none => (st, [])
  | some session =>
    let endedRecord := { session with endTime := some now }
    let duration := now - session.startTime
    ({ st with sessions := mdel st.sessions sessionId,
               timers := mdel st.timers sessionId },
     [Event.ended endedRecord reason duration])

/-- Left-to-right `forEach` of `endSession` over a list of ids, as used
by `cleanupOldestSessions` and `shutdown`; accumulates states and
emitted events in order. -/
def runEnds (st : State) (now : Nat) (ids : List String) (reason : String) :
    State × List Event :=
  match ids with
  | [] => (st, [])
  | id :: rest =>
    let r := endSession st now id reason
    let r2 := runEnds r.1 now rest reason
    (r2.1, r.2 ++ r2.2)

/-- `setupSessionTimeout`: clear any existing timer for the id and
store a fresh one (`clearTimeout` + `setTimeout`); the fresh handle is
the next token from the counter. -/
def setupSessionTimeout (st : State) (sessionId : String) : State :=
  { st with timers := mset st.timers sessionId st.nextTimer,
            nextTimer := st.nextTimer + 1 }

/-- The comparator `(a, b) => a.lastActivity - b.lastActivity` of
`cleanupOldestSessions`, as the ascending order it sorts by. -/
def laLE (a b : String × SessionInfo) : Prop :=
  a.2.lastActivity ≤ b.2.lastActivity

instance : DecidableRel laLE := fun a b =>
  inferInstanceAs (Decidable (a.2.lastActivity ≤ b.2.lastActivity))

instance : IsTotal (String × SessionInfo) laLE :=
  ⟨fun a b => Nat.le_total a.2.lastActivity b.2.lastActivity⟩

instance : IsTrans (String × SessionInfo) laLE :=
  ⟨fun _ _ _ => Nat.le_trans⟩

/-- `cleanupOldestSessions(count)`: sort the entries by `lastActivity`
(ascending; `Array.prototype.sort` is stable, matched here by a stable
insertion sort), take the first `count`, and force-end each with reason
"timeout". -/
def cleanupOldestSessions (st : State) (now : Nat) (count : Nat) : State × List Event :=
  runEnds st now (((st.sessions.insertionSort laLE).take count).map Prod.fst) "timeout"

/-- `const id = sessionId || this.generateSessionId()`: an absent or
empty (falsy) explicit id falls back to the generated one, which is
passed in here as `genId`. -/
def resolveId (explicitId : Option String) (genId : String) : String :=
  match explicitId with
  | some s => if s = "" then genId else s
  | none => genId

/-- `createSession(sessionId?)`: throws when shutting down; when the
active count has reached `maxSessions`, first evicts
`Math.floor(maxSessions * 0.1)` sessions (natural division by 10 agrees
with the float computation on this range); then registers the fresh
record, schedules its timer and emits `sessionCreated`. -/
def createSession (st : State) (now : Nat) (explicitId : Option String) (genId : String) :
    Except SMError (String × State × List Event) :=
  if st.isShuttingDown then
    .error .shuttingDown
  else
    let id := resolveId explicitId genId
    let cleaned :=
      if st.sessions.length ≥ st.maxSessions then
        cleanupOldestSessions st now (st.maxSessions / 10)
      else (st, [])
    let session : SessionInfo := { id := id, startTime := now, lastActivity := now }
    let st2 := { cleaned.1 with sessions := mset cleaned.1.sessions id session }
    .ok (id, setupSessionTimeout st2 id, cleaned.2 ++ [Event.created session])

/-- `updateActivity(sessionId, section?)`: warn-and-return for an
unknown id; otherwise set `lastActivity`, append the section to
`sectionsVisited` when it is given (truthy, hence nonempty) and not yet
present, reschedule the timer and emit `sessionActivity`. -/
def updateActivity (st : State) (now : Nat) (sessionId : String) (sect : Option String) :
    State × List Event :=
  match mget st.sessions sessionId with
  | none => (st, [])
  | some session =>
    let session := { session with lastActivity := now }
    let session :=
      match sect with
      | some sec =>
        if sec ≠ "" ∧ sec ∉ session.sectionsVisited then
          { session with sectionsVisited := session.sectionsVisited ++ [sec] }
        else session
      | none => session
    let st := { st with sessions := mset st.sessions sessionId session }
    (setupSessionTimeout st sessionId, [Event.activity session])

/-- `updateTerminalSize(sessionId, size)`: store the size, then count it
as activity via `updateActivity` (no section argument). -/
def updateTerminalSize (st : State) (now : Nat) (sessionId : String) (size : Nat × Nat) :
    State × List Event :=
  match mget st.sessions sessionId with
  | none => (st, [])
  | some session =>
    let st := { st with
      sessions := mset st.sessions sessionId { session with terminalSize := some size } }
    updateActivity st now sessionId none

/-- `shutdown()`: set the flag, end every active session (in map order)
with reason "shutdown", clear all timers and emit the shutdown event. -/
def shutdown (st : State) (now : Nat) : State × List Event :=
  let st := { st with isShuttingDown := true }
  let r := runEnds st now (st.sessions.map Prod.fst) "shutdown"
  ({ r.1 with timers := [] }, r.2 ++ [Event.shutdownEvent])

/-- The record returned by `getStats()`; `averageSessionDuration` is
`Math.round(averageMs / 1000)`, an integer. -/
structure Stats where
  activeSessions : Nat
  totalSessions : Nat
  averageSessionDuration : Int
  mostVisitedSections : List (String × Nat)
deriving DecidableEq, Repr

/-- The comparator `(a, b) => b.count - a.count` of
`mostVisitedSections`, as the descending order it sorts by. -/
def countGE (a b : String × Nat) : Prop := b.2 ≤ a.2

instance : DecidableRel countGE := fun a b =>
  inferInstanceAs (Decidable (b.2 ≤ a.2))

instance : IsTotal (String × Nat) countGE :=
  ⟨fun a b => Nat.le_total b.2 a.2⟩

instance : IsTrans (String × Nat) countGE :=
  ⟨fun _ _ _ hab hbc => Nat.le_trans hbc hab⟩

/-- `getStats()`: all quantities are computed from
`Array.from(this.sessions.values())`, i.e. from the records still in
the active map.  The average is over those of them with `endTime` set,
in exact rational arithmetic; the visit counts accumulate every entry
of every active session's `sectionsVisited` into an insertion-ordered
map, then sort descending (stable) and keep the top 5. -/
def getStats (st : State) : Stats :=
  let allSessions := st.sessions.map Prod.snd
  let completed := allSessions.filter (fun s => s.endTime.isSome)
  let avgMs : ℚ :=
    if completed.length > 0 then
      (completed.foldl
        (fun sum s => sum + (((s.endTime.getD 0 : Nat) : ℚ) - ((s.startTime : Nat) : ℚ)))
        0) / (completed.length : ℚ)
    else 0
  let sectionCounts := allSessions.foldl
    (fun m s => s.sectionsVisited.foldl (fun m sec => mset m sec ((mget m sec).getD 0 + 1)) m)
    ([] : List (String × Nat))
  { activeSessions := st.sessions.length
    totalSessions := allSessions.length
    averageSessionDuration := round (avgMs / 1000)
    mostVisitedSections := (sectionCounts.insertionSort countGE).take 5 }

/-- A session record as freshly created at time `t` with the given id. -/
def freshSession (id : String) (t : Nat) : SessionInfo :=
  { id := id, startTime := t, lastActivity := t }

/-- Recognizer for `sessionEnded` events. -/
def isEndedEvent : Event → Bool
  | .ended _ _ _ => true
  | _ => false

/-- Recognizer for a `sessionEnded` event whose record has the given id. -/
def isEndedFor (id : String) : Event → Bool
  | .ended s _ _ => s.id == id
  | _ => false

/-- The post-state of a successful `createSession` call, or the fallback
when it threw. -/
def okStateOr (fallback : State) (r : Except SMError (String × State × List Event)) : State :=
  match r with
  | .ok x => x.2.1
  | .error _ => fallback

/-- The events emitted by a successful `createSession` call. -/
def okEvents (r : Except SMError (String × State × List Event)) : List Event :=
  match r with
  | .ok x => x.2.2
  | .error _ => []

/-- The tracker state after the concrete scenario of the spec: two
sessions A and B; `updateActivity(A, "about")` twice and
`updateActivity(B, "about")` once. -/
def demoState : State :=
  let st0 : State := {}
  let st1 := okStateOr st0 (createSession st0 0 (some "A") "gen")
  let st2 := okStateOr st1 (createSession st1 1 (some "B") "gen")
  let st3 := (updateActivity st2 2 "A" (some "about")).1
  let st4 := (updateActivity st3 3 "A" (some "about")).1
  (updateActivity st4 4 "B" (some "about")).1

/-- A tracker at capacity: `maxSessions = 10` and ten active sessions
s0..s9, where s0 is the least recently active; each has a pending
timer. -/
def fullState : State :=
  { sessions := (List.range 10).map
      (fun i => ("s" ++ toString i,
        { id := "s" ++ toString i, startTime := 0, lastActivity := i })),
    timers := (List.range 10).map (fun i => ("s" ++ toString i, i)),
    nextTimer := 10,
    maxSessions := 10,
    sessionTimeout := 1000 }

/-- The state after creating one session at t = 0 ms and ending it at
t = 5000 ms: one session has been seen by the process and the one ended
session lasted 5 seconds. -/
def c8State : State :=
  let st0 : State := {}
  let st1 := okStateOr st0 (createSession st0 0 (some "A") "gen")
  (endSession st1 5000 "A" "disconnect").1

end SM

namespace Nav

/-- Every Next/Previous step from a catalog section lands on a catalog
section (the index read is always in range). -/
theorem navigateToSection_total (d : Direction) (c : SectionType) :
    ∃ s, navigateToSection d c = some s ∧ s ∈ sections := by
  cases d <;> cases c <;> exact ⟨_, rfl, by decide⟩

/-- C1: for every starting section in the 6-element catalog and every
finite sequence of Next/Previous intents, the resulting current section
is a member of the catalog — the navigation function never produces an
out-of-range index (`navIndex` is always below the catalog length) or a
null section (`runNav` never returns `none`). -/
theorem nav_sequence_stays_in_catalog (start : SectionType) (intents : List Direction) :
    (∃ s, runNav intents start = some s ∧ s ∈ sections) ∧
    ∀ (d : Direction) (c : SectionType), navIndex d c < sections.length := by
  refine ⟨?_, by intro d c; cases d <;> cases c <;> decide⟩
  induction intents generalizing start with
  | nil => exact ⟨start, rfl, by cases start <;> decide⟩
  | cons d rest ih =>
    obtain ⟨s, hs, _⟩ := navigateToSection_total d start
    have hstep : runNav (d :: rest) start = runNav rest s := by
      unfold runNav
      simp [hs]
    rw [hstep]
    exact ih s

/-- C2: applying the Next transition exactly 6 times from any starting
section returns that same section, and likewise for Previous
(full-cycle identity under wrap-around). -/
theorem nav_full_cycle (start : SectionType) :
    runNav (List.replicate 6 Direction.next) start = some start ∧
    runNav (List.replicate 6 Direction.prev) start = some start := by
  cases start <;> exact ⟨rfl, rfl⟩

/-- C3 counterexample: the claim says a bare uppercase "G" yields a
single section change and does not also fire the lower-cased vim 'g'
branch.  In the code, `input.toLowerCase()` makes "G" hit the vim 'g'
case and then the separate `input === 'G'` check also fires: from
"about" the handler emits two section changes, the first of them to
"home" (the 'g' branch). -/
theorem upperG_single_change_counterexample :
    (handleInput "G" noKey SectionType.about).length = 2 ∧
    handleInput "G" noKey SectionType.about =
      [Effect.sectionChange SectionType.home, Effect.sectionChange SectionType.contact] := by
  exact ⟨rfl, rfl⟩

/-- C3 amended: decoding a bare "G" fires both the lower-cased vim 'g'
branch and the uppercase-G branch: it emits a change to "home" unless
already there, followed by a change to "contact" unless already there
(two changes from any section other than home and contact).  The
section the handler finally leaves current is "contact", except when
starting at "contact", where it is "home" — so neither the spec note's
"always jumps to home" nor the help text's plain "jump to contact" is
exact. -/
theorem upperG_fires_both_branches (c : SectionType) :
    handleInput "G" noKey c =
      (if c = SectionType.home then [] else [Effect.sectionChange SectionType.home]) ++
      (if c = SectionType.contact then [] else [Effect.sectionChange SectionType.contact]) ∧
    applySectionEffects (handleInput "G" noKey c) c =
      (if c = SectionType.contact then SectionType.home else SectionType.contact) := by
  cases c <;> exact ⟨rfl, rfl⟩

/-- C5: decoding "3" targets "experience" (catalog index 2) from every
starting section, the section left current after the handler is
"experience", and sending "3" while already at "experience" emits no
downstream section-change event at all. -/
theorem digit3_goes_to_experience (c : SectionType) :
    handleInput "3" noKey c =
      (if c = SectionType.experience then [] else [Effect.sectionChange SectionType.experience]) ∧
    applySectionEffects (handleInput "3" noKey c) c = SectionType.experience ∧
    handleInput "3" noKey SectionType.experience = [] := by
  cases c <;> exact ⟨rfl, rfl, rfl⟩

end Nav

namespace Nav

/-- C4: the input decoder is total — in this embedding `handleInput` is
a total function by construction, so it can never raise — and every
(rawInput, modifiers) pair matching none of the mapping rules 1–7
(exit keys, digits 1–6, arrows, vim h/j/k/l in either case, g, G)
produces no effect at all: no section change and no exit. -/
theorem unmatched_input_is_ignored (input : String) (key : Key) (current : SectionType)
    (hesc : key.escape = false) (hq : input ≠ "q")
    (hctrl : ¬(key.ctrl = true ∧ input = "c"))
    (hdig : input ∉ digitKeys)
    (hup : key.upArrow = false) (hdown : key.downArrow = false)
    (hleft : key.leftArrow = false) (hright : key.rightArrow = false)
    (hvim : toLowerStr input ∉ (["h", "k", "l", "j", "g"] : List String))
    (hG : input ≠ "G") :
    handleInput input key current = [] := by
  simp only [digitKeys, List.mem_cons, List.mem_singleton, not_or] at hdig hvim
  obtain ⟨h1, h2, h3, h4, h5, h6⟩ := hdig
  obtain ⟨v1, v2, v3, v4, v5⟩ := hvim
  simp [handleInput, hesc, hq, hctrl, h1, h2, h3, h4, h5, h6, hup, hdown, hleft, hright,
    v1, v2, v3, v4, v5, hG, digitKeys]

/-- Witness for C4: the unmatched keypress "x" with no modifiers changes
nothing from "home". -/
theorem unmatched_input_is_ignored_witness :
    handleInput "x" noKey SectionType.home = [] :=
  unmatched_input_is_ignored "x" noKey SectionType.home rfl (by decide) (by decide)
    (by decide) rfl rfl rfl rfl (by decide) (by decide)

end Nav

namespace SM

theorem mget_mset_self {α : Type} (m : List (String × α)) (k : String) (v : α) :
    mget (mset m k v) k = some v := by
  induction m with
  | nil => simp [mset, mget]
  | cons p ps ih =>
    by_cases h : p.1 = k <;> simp [mset, mget, h, ih]

theorem mget_mset_ne {α : Type} (m : List (String × α)) (k k' : String) (v : α)
    (h : k' ≠ k) : mget (mset m k v) k' = mget m k' := by
  induction m with
  | nil => simp [mset, mget, Ne.symm h]
  | cons p ps ih =>
    by_cases hp : p.1 = k
    · subst hp
      have hne : ¬ p.1 = k' := fun hk => h hk.symm
      simp [mset, mget, hne]
    · simp [mset, mget, hp, ih]

theorem mget_mdel_ne {α : Type} (m : List (String × α)) (k k' : String)
    (h : k' ≠ k) : mget (mdel m k) k' = mget m k' := by
  induction m with
  | nil => simp [mdel]
  | cons p ps ih =>
    by_cases hp : p.1 = k
    · subst hp
      have hne : ¬ p.1 = k' := fun hk => h hk.symm
      simp [mdel, mget, hne]
    · simp [mdel, mget, hp, ih]

theorem mdel_sublist {α : Type} (m : List (String × α)) (k : String) :
    List.Sublist (mdel m k) m := by
  induction m with
  | nil => simp [mdel]
  | cons p ps ih =>
    by_cases hp : p.1 = k
    · simp [mdel, hp]
    · simpa [mdel, hp] using ih.cons₂ p

theorem mem_of_mget {α : Type} {m : List (String × α)} {k : String} {v : α}
    (h : mget m k = some v) : (k, v) ∈ m := by
  induction m with
  | nil => simp [mget] at h
  | cons p ps ih =>
    by_cases hp : p.1 = k
    · simp only [mget, hp, if_pos] at h
      cases h
      rw [← hp]
      exact List.mem_cons_self _ _
    · simp only [mget, hp, if_neg, not_false_iff] at h
      exact List.mem_cons_of_mem p (ih h)

theorem mget_of_mem {α : Type} {m : List (String × α)} {p : String × α}
    (hnd : (m.map Prod.fst).Nodup) (hp : p ∈ m) : mget m p.1 = some p.2 := by
  induction m with
  | nil => simp at hp
  | cons q ps ih =>
    rcases List.mem_cons.mp hp with h | h
    · subst h
      simp [mget]
    · have hq : q.1 ≠ p.1 := by
        intro hqp
        have : p.1 ∈ ps.map Prod.fst := List.mem_map_of_mem Prod.fst h
        rw [← hqp] at this
        exact (List.nodup_cons.mp (by simpa using hnd)).1 this
      simp only [mget, hq, if_neg, not_false_iff]
      exact ih (List.nodup_cons.mp (by simpa using hnd)).2 h

theorem mem_mset {α : Type} {m : List (String × α)} {k : String} {v : α} {q : String × α}
    (h : q ∈ mset m k v) : q = (k, v) ∨ q ∈ m := by
  induction m with
  | nil => simpa [mset] using h
  | cons p ps ih =>
    by_cases hp : p.1 = k
    · rcases List.mem_cons.mp (by simpa [mset, hp] using h) with h1 | h1
      · exact Or.inl h1
      · exact Or.inr (List.mem_cons_of_mem p h1)
    · rcases List.mem_cons.mp (by simpa [mset, hp] using h) with h1 | h1
      · exact Or.inr (by simp [h1])
      · rcases ih h1 with h2 | h2
        · exact Or.inl h2
        · exact Or.inr (List.mem_cons_of_mem p h2)

theorem mget_eq_none_iff {α : Type} (m : List (String × α)) (k : String) :
    mget m k = none ↔ k ∉ m.map Prod.fst := by
  induction m with
  | nil => simp [mget]
  | cons p ps ih =>
    by_cases hp : p.1 = k
    · simp [mget, hp]
    · have hne : ¬ k = p.1 := fun hk => hp hk.symm
      simp [mget, hp, hne, ih]

theorem foldl_mdel_self {α : Type} (m : List (String × α)) :
    m.foldl (fun acc p => mdel acc p.1) m = [] := by
  induction m with
  | nil => rfl
  | cons p ps ih =>
    show List.foldl _ (mdel (p :: ps) p.1) ps = []
    simpa [mdel] using ih

/-- Left-to-right `forEach` of `endSession` over a list of distinct,
present session keys: every listed session is removed (together with
its timer) and one `sessionEnded` event with the given reason and the
computed duration is emitted per session, in order. -/
theorem runEnds_spec (now : Nat) (reason : String) (vs : List (String × SessionInfo)) :
    ∀ (st : State), (vs.map Prod.fst).Nodup →
      (∀ p ∈ vs, mget st.sessions p.1 = some p.2) →
      runEnds st now (vs.map Prod.fst) reason =
        ({ st with sessions := vs.foldl (fun m p => mdel m p.1) st.sessions,
                   timers := vs.foldl (fun m p => mdel m p.1) st.timers },
         vs.map (fun p =>
           Event.ended { p.2 with endTime := some now } reason (now - p.2.startTime))) := by
  induction vs with
  | nil => intro st _ _; rfl
  | cons p vs ih =>
    intro st hnd hmem
    have hp : mget st.sessions p.1 = some p.2 := hmem p (List.mem_cons_self _ _)
    have hkey : p.1 ∉ vs.map Prod.fst := (List.nodup_cons.mp (by simpa using hnd)).1
    have hrest : ∀ q ∈ vs,
        mget (mdel st.sessions p.1) q.1 = some q.2 := by
      intro q hq
      have hne : q.1 ≠ p.1 := fun h => hkey (h ▸ List.mem_map_of_mem Prod.fst hq)
      rw [mget_mdel_ne _ _ _ hne]
      exact hmem q (List.mem_cons_of_mem p hq)
    have hstep :
        runEnds st now ((p :: vs).map Prod.fst) reason =
          (let r2 := runEnds { st with sessions := mdel st.sessions p.1,
                                       timers := mdel st.timers p.1 } now
                       (vs.map Prod.fst) reason
           (r2.1, [Event.ended { p.2 with endTime := some now } reason
                     (now - p.2.startTime)] ++ r2.2)) := by
      simp [runEnds, endSession, hp]
    rw [hstep,
      ih { st with sessions := mdel st.sessions p.1, timers := mdel st.timers p.1 }
        (List.nodup_cons.mp (by simpa using hnd)).2 hrest]
    simp [List.foldl_cons, mdel]

end SM

namespace SM

theorem foldl_mdel_sublist {α β : Type} (vs : List (String × β)) :
    ∀ (m : List (String × α)),
      List.Sublist (vs.foldl (fun acc p => mdel acc p.1) m) m := by
  induction vs with
  | nil => intro m; exact List.Sublist.refl m
  | cons p vs ih =>
    intro m
    exact (ih (mdel m p.1)).trans (mdel_sublist m p.1)

theorem mget_mdel_self {α : Type} (m : List (String × α)) (k : String)
    (hnd : (m.map Prod.fst).Nodup) : mget (mdel m k) k = none := by
  induction m with
  | nil => simp [mdel, mget]
  | cons p ps ih =>
    by_cases hp : p.1 = k
    · subst hp
      simp only [mdel, if_pos]
      exact (mget_eq_none_iff ps p.1).mpr (List.nodup_cons.mp (by simpa using hnd)).1
    · simp only [mdel, mget, hp, if_neg, not_false_iff, ite_false]
      exact ih (List.nodup_cons.mp (by simpa using hnd)).2

theorem mget_foldl_mdel_none {α β : Type} (vs : List (String × β)) (k : String) :
    ∀ m : List (String × α), mget m k = none →
      mget (vs.foldl (fun acc p => mdel acc p.1) m) k = none := by
  induction vs with
  | nil => intro m h; exact h
  | cons p vs ih =>
    intro m h
    apply ih
    rw [mget_eq_none_iff] at h ⊢
    intro hk
    exact h (((mdel_sublist m p.1).map Prod.fst).subset hk)

theorem keys_nodup_mdel {α : Type} (m : List (String × α)) (k : String)
    (h : (m.map Prod.fst).Nodup) : ((mdel m k).map Prod.fst).Nodup :=
  List.Nodup.sublist ((mdel_sublist m k).map Prod.fst) h

theorem mget_foldl_mdel_of_mem {α β : Type} (vs : List (String × β)) (k : String) :
    ∀ m : List (String × α), (m.map Prod.fst).Nodup → k ∈ vs.map Prod.fst →
      mget (vs.foldl (fun acc p => mdel acc p.1) m) k = none := by
  induction vs with
  | nil => intro m _ h; simp at h
  | cons p vs ih =>
    intro m hnd hk
    rw [List.map_cons, List.mem_cons] at hk
    rcases hk with h | h
    · subst h
      exact mget_foldl_mdel_none vs _ (mdel m _) (mget_mdel_self m _ hnd)
    · exact ih (mdel m p.1) (keys_nodup_mdel m p.1 hnd) h

end SM

namespace SM

/-- C6: when `createSession` is called with the active count at (or
beyond) the configured maximum and the tracker not shutting down, it
does not reject: it returns ok, first force-ends the
`Math.floor(maxSessions * 0.1)` least-recently-active sessions — every
`sessionEnded` event it emits carries reason "timeout" and belongs to a
session whose `lastActivity` is at most that of every surviving session
— and then registers and announces the fresh session (the `created`
event comes last). -/
theorem createSession_at_capacity_evicts
    (st : State) (now : Nat) (explicitId : Option String) (genId : String)
    (hsd : st.isShuttingDown = false)
    (hcap : st.maxSessions ≤ st.sessions.length)
    (hkeys : (st.sessions.map Prod.fst).Nodup) :
    ∃ st' evs,
      createSession st now explicitId genId =
        Except.ok (resolveId explicitId genId, st', evs) ∧
      mget st'.sessions (resolveId explicitId genId) =
        some (freshSession (resolveId explicitId genId) now) ∧
      (evs.filter isEndedEvent).length = min (st.maxSessions / 10) st.sessions.length ∧
      evs.getLast? = some (Event.created (freshSession (resolveId explicitId genId) now)) ∧
      ∀ e r d, Event.ended e r d ∈ evs →
        r = "timeout" ∧
        ∀ q ∈ st'.sessions, q.1 ≠ resolveId explicitId genId →
          e.lastActivity ≤ q.2.lastActivity := by
  set sid := resolveId explicitId genId with hsid
  set kk := st.maxSessions / 10 with hkk
  set sorted := st.sessions.insertionSort laLE with hsortedEq
  set vs := sorted.take kk with hvsEq
  have hperm : sorted.Perm st.sessions := List.perm_insertionSort laLE st.sessions
  have hsortkeys : (sorted.map Prod.fst).Nodup :=
    ((hperm.map Prod.fst).nodup_iff).mpr hkeys
  have hvsnd : (vs.map Prod.fst).Nodup := by
    rw [hvsEq, List.map_take]
    exact List.Nodup.sublist (List.take_sublist kk (sorted.map Prod.fst)) hsortkeys
  have hvsmem : ∀ p ∈ vs, mget st.sessions p.1 = some p.2 := fun p hp =>
    mget_of_mem hkeys (hperm.mem_iff.mp (List.take_subset kk sorted hp))
  set S1 := vs.foldl (fun acc p => mdel acc p.1) st.sessions with hS1
  set T1 := vs.foldl (fun acc p => mdel acc p.1) st.timers with hT1
  set fresh := freshSession sid now with hfresh
  set evsEnd := vs.map (fun p =>
      Event.ended { p.2 with endTime := some now } "timeout" (now - p.2.startTime)) with hevsEnd
  have hcl : cleanupOldestSessions st now kk =
      ({ st with sessions := S1, timers := T1 }, evsEnd) := by
    unfold cleanupOldestSessions
    exact runEnds_spec now "timeout" vs st hvsnd hvsmem
  have hclean :
      (if st.sessions.length ≥ st.maxSessions then
        cleanupOldestSessions st now (st.maxSessions / 10)
      else (st, [])) = ({ st with sessions := S1, timers := T1 }, evsEnd) := by
    rw [if_pos hcap]
    exact hcl
  set stFinal : State :=
    { st with sessions := mset S1 sid fresh,
              timers := mset T1 sid st.nextTimer,
              nextTimer := st.nextTimer + 1,
              isShuttingDown := false } with hstFinal
  have hrun : createSession st now explicitId genId =
      Except.ok (sid, stFinal, evsEnd ++ [Event.created fresh]) := by
    simp only [createSession, hsd, Bool.false_eq_true, if_false, hclean]
    rfl
  refine ⟨stFinal, evsEnd ++ [Event.created fresh], hrun, ?_, ?_, ?_, ?_⟩
  · exact mget_mset_self S1 sid fresh
  · have hfilter : (evsEnd ++ [Event.created fresh]).filter isEndedEvent = evsEnd := by
      rw [List.filter_append]
      have h1 : evsEnd.filter isEndedEvent = evsEnd :=
        List.filter_eq_self.mpr (by
          intro e he
          obtain ⟨p, hp, hpe⟩ := List.mem_map.mp he
          rw [← hpe]
          rfl)
      have h2 : ([Event.created fresh] : List Event).filter isEndedEvent = [] := rfl
      rw [h1, h2, List.append_nil]
    rw [hfilter, hevsEnd, List.length_map, hvsEq, List.length_take, hperm.length_eq]
  · exact List.getLast?_concat _
  · intro e r d hmem
    rcases List.mem_append.mp hmem with hin | hin
    · obtain ⟨p, hp, heq⟩ := List.mem_map.mp hin
      injection heq with he hr hd
      refine ⟨hr.symm, ?_⟩
      intro q hq hqne
      rcases mem_mset hq with h | h
      · exact absurd (by rw [h]) hqne
      · have hqkeys : q.1 ∉ vs.map Prod.fst := by
          intro hk
          have h0 := mget_foldl_mdel_of_mem vs q.1 st.sessions hkeys hk
          rw [mget_eq_none_iff] at h0
          exact h0 (List.mem_map_of_mem Prod.fst h)
        have hqsorted : q ∈ sorted :=
          hperm.mem_iff.mpr ((foldl_mdel_sublist vs st.sessions).subset h)
        have hqsplit : q ∈ sorted.take kk ++ sorted.drop kk := by
          rw [List.take_append_drop]
          exact hqsorted
        have hqdrop : q ∈ sorted.drop kk := by
          rcases List.mem_append.mp hqsplit with h1 | h1
          · exact absurd (List.mem_map_of_mem Prod.fst h1) hqkeys
          · exact h1
        have hpw : List.Pairwise laLE sorted := List.sorted_insertionSort laLE st.sessions
        rw [← List.take_append_drop kk sorted] at hpw
        have hle := (List.pairwise_append.mp hpw).2.2 p hp q hqdrop
        rw [← he]
        exact hle
    · simp at hin

/-- Witness for C6: at `fullState` (ten sessions, maximum ten) a fresh
createSession succeeds, evicting exactly one session with reason
"timeout". -/
theorem createSession_at_capacity_evicts_witness :
    ∃ st' evs,
      createSession fullState 100 (some "zz") "gen" =
        Except.ok (resolveId (some "zz") "gen", st', evs) ∧
      mget st'.sessions (resolveId (some "zz") "gen") =
        some (freshSession (resolveId (some "zz") "gen") 100) ∧
      (evs.filter isEndedEvent).length =
        min (fullState.maxSessions / 10) fullState.sessions.length ∧
      evs.getLast? = some (Event.created (freshSession (resolveId (some "zz") "gen") 100)) ∧
      ∀ e r d, Event.ended e r d ∈ evs →
        r = "timeout" ∧
        ∀ q ∈ st'.sessions, q.1 ≠ resolveId (some "zz") "gen" →
          e.lastActivity ≤ q.2.lastActivity :=
  createSession_at_capacity_evicts fullState 100 (some "zz") "gen" rfl (by decide) (by decide)

end SM

namespace SM

/-- C7: `shutdown` marks the tracker as shutting down, ends every active
session with reason "shutdown" (one `sessionEnded` event per session, in
map order, before the final shutdown event), leaves no session and no
timer behind, and afterwards every `createSession` call fails
synchronously with the shutting-down error — so no record is created and
no timer is scheduled. -/
theorem shutdown_ends_all_and_blocks_creation
    (st : State) (now : Nat)
    (hkeys : (st.sessions.map Prod.fst).Nodup) :
    (shutdown st now).1.isShuttingDown = true ∧
    (shutdown st now).1.sessions = [] ∧
    (shutdown st now).1.timers = [] ∧
    (shutdown st now).2 =
      (st.sessions.map (fun p =>
        Event.ended { p.2 with endTime := some now } "shutdown" (now - p.2.startTime)))
        ++ [Event.shutdownEvent] ∧
    ∀ (now2 : Nat) (explicitId : Option String) (genId : String),
      createSession (shutdown st now).1 now2 explicitId genId =
        Except.error SMError.shuttingDown := by
  have hmem : ∀ p ∈ st.sessions,
      mget ({ st with isShuttingDown := true } : State).sessions p.1 = some p.2 := by
    intro p hp
    exact mget_of_mem hkeys hp
  have hrun :=
    runEnds_spec now "shutdown" st.sessions { st with isShuttingDown := true } hkeys hmem
  have hsd : shutdown st now =
      ({ st with sessions := [], timers := [], isShuttingDown := true },
       (st.sessions.map (fun p =>
         Event.ended { p.2 with endTime := some now } "shutdown" (now - p.2.startTime)))
         ++ [Event.shutdownEvent]) := by
    simp only [shutdown]
    rw [hrun, foldl_mdel_self]
  refine ⟨by rw [hsd], by rw [hsd], by rw [hsd], by rw [hsd], ?_⟩
  intro now2 explicitId genId
  rw [hsd]
  rfl

/-- Witness for C7: shutting down the two-session demo tracker empties
it and a later createSession attempt is rejected. -/
theorem shutdown_ends_all_witness :
    (shutdown demoState 10).1.isShuttingDown = true ∧
    (shutdown demoState 10).1.sessions = [] ∧
    (shutdown demoState 10).1.timers = [] ∧
    createSession (shutdown demoState 10).1 11 (some "Z") "gen" =
      Except.error SMError.shuttingDown := by
  have h := shutdown_ends_all_and_blocks_creation demoState 10 (by decide)
  exact ⟨h.1, h.2.1, h.2.2.1, h.2.2.2.2 11 (some "Z") "gen"⟩

end SM

namespace SM

theorem runEnds_sessions_sublist (now : Nat) (reason : String) (ids : List String) :
    ∀ st : State, List.Sublist (runEnds st now ids reason).1.sessions st.sessions := by
  induction ids with
  | nil => intro st; exact List.Sublist.refl _
  | cons i ids ih =>
    intro st
    cases h : mget st.sessions i with
    | none =>
      have he : endSession st now i reason = (st, []) := by simp [endSession, h]
      simpa [runEnds, he] using ih st
    | some s =>
      have he : endSession st now i reason =
          ({ st with sessions := mdel st.sessions i, timers := mdel st.timers i },
           [Event.ended { s with endTime := some now } reason (now - s.startTime)]) := by
        simp [endSession, h]
      have := ih { st with sessions := mdel st.sessions i, timers := mdel st.timers i }
      simp only [runEnds, he]
      exact this.trans (mdel_sublist _ _)

/-- C8 counterexample: one session is created at t = 0 and explicitly
ended at t = 5000 ms, so the mean duration over ended sessions is 5
seconds and one session was seen by the process — but `getStats`
reports an average of 0 and a `totalSessions` of 0, because
`endSession` removes the record from the map that `getStats` reads. -/
theorem getStats_forgets_ended_counterexample :
    (getStats c8State).averageSessionDuration = 0 ∧
    (getStats c8State).totalSessions = 0 ∧
    (getStats c8State).activeSessions = 0 := by
  have hsess : c8State.sessions = [] := by decide
  refine ⟨?_, ?_, ?_⟩ <;> simp [getStats, hsess]

/-- C8 amended: `getStats` computes every quantity from the records
still in the active map, and a session leaves that map the moment it
ends; consequently, in any state whose active records all have
`endTime` absent — an invariant that `createSession`, `updateActivity`
and `endSession` all preserve, as the last three conjuncts show —
`averageSessionDuration` is 0 and `totalSessions` equals
`activeSessions` (the active count), not the number of sessions seen by
the process; ended sessions contribute to neither. -/
theorem getStats_counts_only_active
    (st : State)
    (hnone : ∀ p ∈ st.sessions, p.2.endTime = none) :
    (getStats st).averageSessionDuration = 0 ∧
    (getStats st).totalSessions = st.sessions.length ∧
    (getStats st).activeSessions = st.sessions.length ∧
    (∀ (now : Nat) (explicitId : Option String) (genId : String) (i : String)
        (st' : State) (evs : List Event),
      createSession st now explicitId genId = Except.ok (i, st', evs) →
      ∀ p ∈ st'.sessions, p.2.endTime = none) ∧
    (∀ (now : Nat) (sid : String) (sect : Option String),
      ∀ p ∈ (updateActivity st now sid sect).1.sessions, p.2.endTime = none) ∧
    (∀ (now : Nat) (sid : String) (reason : String),
      ∀ p ∈ (endSession st now sid reason).1.sessions, p.2.endTime = none) := by
  have hcomp : (st.sessions.map Prod.snd).filter (fun s => s.endTime.isSome) = [] := by
    rw [List.filter_eq_nil_iff]
    intro s hs
    obtain ⟨p, hp, hps⟩ := List.mem_map.mp hs
    rw [← hps]
    simp [hnone p hp]
  refine ⟨?_, ?_, rfl, ?_, ?_, ?_⟩
  · simp only [getStats, hcomp]
    norm_num
  · simp only [getStats]
    exact List.length_map _ _
  · intro now explicitId genId i st' evs hok p hp
    cases hb : st.isShuttingDown with
    | true =>
      rw [createSession, hb] at hok
      simp at hok
    | false =>
      rw [createSession, hb] at hok
      simp only [Bool.false_eq_true, if_false, Except.ok.injEq, Prod.mk.injEq] at hok
      obtain ⟨h1, h2, h3⟩ := hok
      rw [← h2] at hp
      have hsub : List.Sublist
          (if st.sessions.length ≥ st.maxSessions then
            cleanupOldestSessions st now (st.maxSessions / 10)
          else (st, [])).1.sessions st.sessions := by
        by_cases hc : st.sessions.length ≥ st.maxSessions
        · rw [if_pos hc]
          exact runEnds_sessions_sublist now "timeout" _ st
        · rw [if_neg hc]
      rcases mem_mset hp with h | h
      · rw [h]
      · exact hnone p (hsub.subset h)
  · intro now sid sect p hp
    cases hm : mget st.sessions sid with
    | none =>
      rw [updateActivity, hm] at hp
      exact hnone p hp
    | some session =>
      rw [updateActivity, hm] at hp
      have hsn : session.endTime = none := hnone (sid, session) (mem_of_mget hm)
      rcases mem_mset hp with h | h
      · rw [h]
        cases sect with
        | none => exact hsn
        | some sec =>
          by_cases hc : sec ≠ "" ∧ sec ∉ session.sectionsVisited
          · simp only [if_pos hc]
            exact hsn
          · simp only [if_neg hc]
            exact hsn
      · exact hnone p h
  · intro now sid reason p hp
    cases hm : mget st.sessions sid with
    | none =>
      rw [endSession, hm] at hp
      exact hnone p hp
    | some session =>
      rw [endSession, hm] at hp
      exact hnone p ((mdel_sublist st.sessions sid).subset hp)

/-- Witness for C8 amended: the two-session demo state has no ended
record in its map, and its stats come out as the amended claim says. -/
theorem getStats_counts_only_active_witness :
    (getStats demoState).averageSessionDuration = 0 ∧
    (getStats demoState).totalSessions = demoState.sessions.length ∧
    (getStats demoState).activeSessions = demoState.sessions.length := by
  have h := getStats_counts_only_active demoState (by decide)
  exact ⟨h.1, h.2.1, h.2.2.1⟩

end SM

namespace SM

/-- C9: `updateActivity` appends a section to a session's
`sectionsVisited` only on that session's first visit (otherwise the
list, and hence its insertion order, is untouched), so the list never
acquires duplicates; and `getStats` counts one per distinct session
that visited a section: after `updateActivity(A, "about")` twice and
`updateActivity(B, "about")` once, the reported count for "about" is
2. -/
theorem sectionsVisited_nodup_and_per_session_count
    (st : State) (now : Nat) (sid : String) (sec : String)
    (hnd : ∀ p ∈ st.sessions, p.2.sectionsVisited.Nodup) :
    (∀ p ∈ (updateActivity st now sid (some sec)).1.sessions,
      p.2.sectionsVisited.Nodup) ∧
    (∀ s, mget st.sessions sid = some s → sec ≠ "" →
      mget (updateActivity st now sid (some sec)).1.sessions sid =
        some { s with lastActivity := now,
                      sectionsVisited :=
                        if sec ∈ s.sectionsVisited then s.sectionsVisited
                        else s.sectionsVisited ++ [sec] }) ∧
    ("about", 2) ∈ (getStats demoState).mostVisitedSections := by
  refine ⟨?_, ?_, by decide⟩
  · intro p hp
    cases hm : mget st.sessions sid with
    | none =>
      rw [updateActivity, hm] at hp
      exact hnd p hp
    | some session =>
      rw [updateActivity, hm] at hp
      have hsn : session.sectionsVisited.Nodup := hnd (sid, session) (mem_of_mget hm)
      rcases mem_mset hp with h | h
      · rw [h]
        by_cases hc : sec ≠ "" ∧ sec ∉ session.sectionsVisited
        · simp only [if_pos hc]
          simp [List.nodup_append, hsn, hc.2]
        · simp only [if_neg hc]
          exact hsn
      · exact hnd p h
  · intro s hm hsec
    rw [updateActivity, hm]
    by_cases hmem : sec ∈ s.sectionsVisited
    · have hc : ¬ (sec ≠ "" ∧ sec ∉ s.sectionsVisited) := fun h => h.2 hmem
      simp only [if_neg hc, if_pos hmem]
      exact mget_mset_self _ _ _
    · have hc : sec ≠ "" ∧ sec ∉ s.sectionsVisited := ⟨hsec, hmem⟩
      simp only [if_pos hc, if_neg hmem]
      exact mget_mset_self _ _ _

/-- Witness for C9: updating session A of the demo state with the fresh
section "skills" appends it after "about" (insertion order, no
duplicate), and the demo state reports ("about", 2). -/
theorem sectionsVisited_nodup_witness :
    mget (updateActivity demoState 9 "A" (some "skills")).1.sessions "A" =
      some { id := "A", startTime := 0, endTime := none, terminalSize := none,
             sectionsVisited := ["about", "skills"], lastActivity := 9 } ∧
    ("about", 2) ∈ (getStats demoState).mostVisitedSections := by
  have h := sectionsVisited_nodup_and_per_session_count demoState 9 "A" "skills" (by decide)
  refine ⟨?_, h.2.2⟩
  have h2 := h.2.1
    { id := "A", startTime := 0, endTime := none, terminalSize := none,
      sectionsVisited := ["about"], lastActivity := 3 } (by decide) (by decide)
  simpa using h2

/-- C10 counterexample: the claim says no `sessionEnded` event is ever
emitted for the overwritten record.  At capacity it is: in `fullState`
(ten sessions, maximum ten) the id "s0" is the least recently active,
so `createSession` with explicit id "s0" first force-ends the existing
"s0" record — emitting a `sessionEnded` event for it, with reason
"timeout" — and only then registers the fresh record under the same
id. -/
theorem createSession_overwrite_counterexample :
    (okEvents (createSession fullState 100 (some "s0") "gen")).countP (isEndedFor "s0") = 1 ∧
    mget (okStateOr fullState (createSession fullState 100 (some "s0") "gen")).sessions "s0" =
      some (freshSession "s0" 100) := by
  exact ⟨by decide, by decide⟩

/-- C10 amended: when the tracker is not shutting down and is below
capacity (so no eviction pass runs), `createSession` with an explicit
id that already names an active session raises no error and silently
replaces the record with a fresh one — new `startTime`, empty
`sectionsVisited`, so the old visit history is lost — replaces the idle
timer with a freshly scheduled one, and emits only a `created` event,
never an `ended` event for the overwritten record.  At capacity, the
eviction pass may first end the old record with reason "timeout",
emitting an `ended` event for it, as the counterexample shows. -/
theorem createSession_overwrites_below_capacity
    (st : State) (now : Nat) (sid genId : String) (s0 : SessionInfo)
    (hsd : st.isShuttingDown = false)
    (hmem : mget st.sessions sid = some s0)
    (hid : sid ≠ "")
    (hcap : st.sessions.length < st.maxSessions)
    (hwf : ∀ p ∈ st.timers, p.2 < st.nextTimer) :
    createSession st now (some sid) genId =
      Except.ok (sid,
        { st with sessions := mset st.sessions sid (freshSession sid now),
                  timers := mset st.timers sid st.nextTimer,
                  nextTimer := st.nextTimer + 1 },
        [Event.created (freshSession sid now)]) ∧
    mget (mset st.sessions sid (freshSession sid now)) sid =
      some (freshSession sid now) ∧
    mget (mset st.timers sid st.nextTimer) sid = some st.nextTimer ∧
    ∀ t, mget st.timers sid = some t → t ≠ st.nextTimer := by
  have hnotcap : ¬ (st.sessions.length ≥ st.maxSessions) := Nat.not_le.mpr hcap
  refine ⟨?_, mget_mset_self _ _ _, mget_mset_self _ _ _, ?_⟩
  · rw [createSession]
    simp only [hsd, Bool.false_eq_true, if_false, if_neg hnotcap, resolveId, hid, ite_false]
    simp [setupSessionTimeout, hsd, freshSession]
  · intro t ht
    exact Nat.ne_of_lt (hwf (sid, t) (mem_of_mget ht))

/-- Witness for C10 amended: overwriting session A of the demo state
(below capacity) replaces its record and timer and emits only the
created event; the old visit history (["about"]) is gone. -/
theorem createSession_overwrites_below_capacity_witness :
    createSession demoState 20 (some "A") "gen" =
      Except.ok ("A",
        { demoState with
            sessions := mset demoState.sessions "A" (freshSession "A" 20),
            timers := mset demoState.timers "A" demoState.nextTimer,
            nextTimer := demoState.nextTimer + 1 },
        [Event.created (freshSession "A" 20)]) ∧
    mget (mset demoState.sessions "A" (freshSession "A" 20)) "A" =
      some (freshSession "A" 20) ∧
    mget (mset demoState.timers "A" demoState.nextTimer) "A" =
      some demoState.nextTimer ∧
    ∀ t, mget demoState.timers "A" = some t → t ≠ demoState.nextTimer :=
  createSession_overwrites_below_capacity demoState 20 "A" "gen"
    { id := "A", startTime := 0, endTime := none, terminalSize := none,
      sectionsVisited := ["about"], lastActivity := 3 }
    rfl (by decide) (by decide) (by decide) (by decide)

end SM
